import Mathlib

/-
Verification of the boinc-rpc client library against its specification.

The development shallowly embeds the relevant parts of the Rust source:
  * `src/util.rs`            — `eval_node_contents`
  * `src/lib.rs`             — `verify_rpc_reply_contents`, `Client::get_object`
                               (reply handling), `Client::exchange_versions`
                               (request encoding), the `Transport` service
                               state machine (`ConnState`, `poll_ready`, `call`)
  * `src/models.rs`          — `VersionInfo::from`, `HostInfo::from`
  * `src/messages/helpers.rs`— `parse_node`, `add_element`
  * `src/messages/exchange_versions.rs` — the `ExchangeVersions` codec

Machine integers are modelled as `Int` with explicit range checks where the
Rust `FromStr` implementations check overflow; `format!("{v}")` for `i64`
values is modelled by a decimal printer; `str::parse::<f64>` is kept
abstract (an arbitrary total function `String → Option F`), since only the
shape of the result matters for the properties proved here.
-/

namespace BoincRpc

/-- Decimal digit to character, as produced by Rust's `Display` for integers. -/
def digitChar (d : Nat) : Char := Char.ofNat (48 + d)

/-- Character to decimal digit value (undefined garbage off digits). -/
def digitVal (c : Char) : Nat := c.toNat - 48

/-- Is the character an ASCII decimal digit? -/
def isDigitChar (c : Char) : Bool := 48 ≤ c.toNat && c.toNat ≤ 57

/-- Fuel-driven decimal printer for naturals; with fuel > n this agrees with
the usual most-significant-first decimal rendering (no leading zeros,
`0` prints as "0"). -/
def natToDigitsAux : Nat → Nat → List Char
  | 0, _ => []
  | fuel + 1, n =>
    if n < 10 then [digitChar n]
    else natToDigitsAux fuel (n / 10) ++ [digitChar (n % 10)]

/-- Decimal rendering of a natural number. -/
def natDigitChars (n : Nat) : List Char := natToDigitsAux (n + 1) n

/-- Model of Rust `format!("{v}")` for an `i64` value, as a character list. -/
def i64fmtChars (v : Int) : List Char :=
  if v < 0 then '-' :: natDigitChars v.natAbs else natDigitChars v.natAbs

/-- Model of Rust `format!("{v}")` for an `i64` value. -/
def i64fmt (v : Int) : String := ⟨i64fmtChars v⟩

/-- One step of decimal accumulation while parsing digits. -/
def parseDigitsStep (acc : Option Nat) (c : Char) : Option Nat :=
  match acc with
  | none => none
  | some a => if isDigitChar c then some (a * 10 + digitVal c) else none

/-- Parse a nonempty all-digit character list into a natural number
(the digit-accumulation loop of Rust's integer `FromStr`). -/
def parseDigits (cs : List Char) : Option Nat :=
  match cs with
  | [] => none
  | _ => cs.foldl parseDigitsStep (some 0)

/-- Model of Rust's integer `FromStr` for a signed type with value range
`[lo, hi]`: optional sign, at least one digit, overflow rejected.  The
Rust implementation checks overflow during accumulation; since magnitude
only grows, that is equivalent to a final range check. -/
def parseSignedIntChars (lo hi : Int) (cs : List Char) : Option Int :=
  match cs with
  | [] => none
  | '+' :: rest =>
    (parseDigits rest).bind fun m =>
      if lo ≤ (m : Int) ∧ (m : Int) ≤ hi then some (m : Int) else none
  | '-' :: rest =>
    (parseDigits rest).bind fun m =>
      if lo ≤ -(m : Int) ∧ -(m : Int) ≤ hi then some (-(m : Int)) else none
  | _ =>
    (parseDigits cs).bind fun m =>
      if lo ≤ (m : Int) ∧ (m : Int) ≤ hi then some (m : Int) else none

/-- Model of `str::parse::<i64>().ok()`. -/
def parseI64 (s : String) : Option Int :=
  parseSignedIntChars (-(2 ^ 63)) (2 ^ 63 - 1) s.data

/-- Model of `str::parse::<i32>().ok()`. -/
def parseI32 (s : String) : Option Int :=
  parseSignedIntChars (-(2 ^ 31)) (2 ^ 31 - 1) s.data

/-- Model of `str::parse::<bool>().ok()` (Rust accepts exactly "true"/"false"). -/
def parseBool (s : String) : Option Bool :=
  if s = "true" then some true else if s = "false" then some false else none

/-- An element of the protocol tree (`treexml::Element`): tag name, optional
plain text, optional raw cdata, ordered children. -/
structure Element where
  name : String
  text : Option String
  cdata : Option String
  children : List Element

/-- `treexml::Element::new`. -/
def Element.new (nm : String) : Element :=
  { name := nm, text := none, cdata := none, children := [] }

/-- The library's error enumeration (`src/errors.rs`). -/
inductive Error where
  | Connect (s : String)
  | DataParse (s : String)
  | InvalidPassword (s : String)
  | Daemon (s : String)
  | Null (s : String)
  | Network (s : String)
  | Status (code : Int)
  | Auth (s : String)
  | InvalidURL (s : String)
  | AlreadyAttached (s : String)
deriving DecidableEq, Repr

/-- `util::eval_node_contents`: parse the element's text, if any, with the
field type's `FromStr`; `None` text or a parse failure both give `None`. -/
def evalNodeContents {α : Type} (parse : String → Option α) (node : Element) :
    Option α :=
  match node.text with
  | none => none
  | some v => parse v

/-- Does the tag name trigger an early (terminal) return in
`verify_rpc_reply_contents`? -/
def isTerminal (s : String) : Bool :=
  s = "status" || s = "unauthorized" || s = "error"

/-- The loop body of `verify_rpc_reply_contents` (`src/lib.rs`), with the
running `success` flag made explicit.  The Rust `match` on the tag name is
rendered as a chain of equality tests on the same disjoint string literals. -/
def verifyAux : Bool → List Element → Except Error Bool
  | success, [] => .ok success
  | success, node :: rest =>
    if node.name = "success" then verifyAux true rest
    else if node.name = "status" then
      .error (.Status ((evalNodeContents parseI32 node).getD 9999))
    else if node.name = "unauthorized" then .error (.Auth "")
    else if node.name = "error" then
      match node.text with
      | none => .error (.Daemon "Unknown error")
      | some errorMsg =>
        if errorMsg = "unauthorized" ∨ errorMsg = "Missing authenticator" then
          .error (.Auth errorMsg)
        else if errorMsg = "Missing URL" then .error (.InvalidURL errorMsg)
        else if errorMsg = "Already attached to project" then
          .error (.AlreadyAttached errorMsg)
        else .error (.DataParse errorMsg)
    else verifyAux success rest

/-- `verify_rpc_reply_contents` (`src/lib.rs`): scan the reply's top-level
elements in document order; the `success` flag starts false. -/
def verify_rpc_reply_contents (data : List Element) : Except Error Bool :=
  verifyAux false data

/-- The scan for the first child with the requested tag in
`Client::get_object` (`src/lib.rs`). -/
def findTag (objectTag : String) : List Element → Option Element
  | [] => none
  | c :: rest => if c.name = objectTag then some c else findTag objectTag rest

/-- The reply-processing part of `Client::get_object` (`src/lib.rs`),
parameterised by the record decoder `T::from`: validate the reply, then
return the decode of the first child named `objectTag`, else a
`DataParse "Object not found."` failure. -/
def getObjectReply {α : Type} (decode : Element → α) (objectTag : String)
    (data : List Element) : Except Error α :=
  match verify_rpc_reply_contents data with
  | .error e => .error e
  | .ok _ =>
    match findTag objectTag data with
    | some c => .ok (decode c)
    | none => .error (.DataParse "Object not found.")

/-- `ConnState` (`src/lib.rs`): the transport's three-way state.  `S` stands
for the live `DaemonStream` session and `Fut` for the pending handshake
future (both live in the missing `src/rpc.rs`, so they are abstract here). -/
inductive ConnState (S Fut : Type) where
  | Connecting (f : Fut)
  | Ready (conn : S)
  | Error (e : Error)

/-- The outcome of advancing the pending handshake future one step
(`future.as_mut().poll(cx)` in `Transport::poll_ready`). -/
inductive FuturePoll (S : Type) where
  | pending
  | ready (r : Except Error S)

/-- What a `poll_ready` readiness check reports to the caller. -/
inductive PollOut where
  | pending
  | ready (r : Except Error Unit)

/-- `Transport::poll_ready` (`src/lib.rs`), in the case where the lock was
acquired: the guarded `Option<ConnState>` is taken, matched, and written
back; returns the new stored state and the reported poll result.  The
result of polling the inner handshake future is passed in as `fp`. -/
def pollReady {S Fut : Type} (st : Option (ConnState S Fut))
    (fp : FuturePoll S) : Option (ConnState S Fut) × PollOut :=
  match st with
  | some (.Connecting f) =>
    match fp with
    | .pending => (some (.Connecting f), .pending)
    | .ready (.ok conn) => (some (.Ready conn), .ready (.ok ()))
    | .ready (.error e) => (none, .ready (.error e))
  | some (.Ready conn) => (some (.Ready conn), .ready (.ok ()))
  | some (.Error e) => (some (.Error e), .ready (.error e))
  | none => (none, .ready (.error (.Null "Null state")))

/-- `Transport::call` (`src/lib.rs`): the state is taken (leaving `None`);
anything but `Ready` hits `unreachable!()` (modelled as `none`); the
outcome of `conn.query(req)` is passed in as `queryRes`.  Only the error
branch writes a state back. -/
def callTransport {S Fut : Type} (st : Option (ConnState S Fut))
    (queryRes : Except Error (List Element)) :
    Option (Option (ConnState S Fut) × Except Error (List Element)) :=
  match st with
  | some (.Ready _conn) =>
    match queryRes with
    | .ok data => some (none, .ok data)
    | .error e => some (some (.Error e), .error e)
  | _ => none

/-- `models::VersionInfo`. -/
structure VersionInfo where
  major : Option Int
  minor : Option Int
  release : Option Int
deriving DecidableEq, Repr

/-- `VersionInfo::default()`. -/
def VersionInfo.default : VersionInfo :=
  { major := none, minor := none, release := none }

/-- The loop body of `VersionInfo::from` (`src/models.rs`). -/
def viStep (e : VersionInfo) (n : Element) : VersionInfo :=
  if n.name = "major" then { e with major := evalNodeContents parseI64 n }
  else if n.name = "minor" then { e with minor := evalNodeContents parseI64 n }
  else if n.name = "release" then
    { e with release := evalNodeContents parseI64 n }
  else e

/-- `VersionInfo::from(&treexml::Element)` (`src/models.rs`): start from the
default record and fold the children in document order. -/
def VersionInfo.fromElement (node : Element) : VersionInfo :=
  node.children.foldl viStep VersionInfo.default

/-- The request tree built by `Client::exchange_versions` (`src/lib.rs`):
three child tags are always pushed, with `text = None` when the field is
absent; note the source assigns `info.minor` to the `major` tag and
`info.major` to the `minor` tag. -/
def exchangeVersionsRequest (info : VersionInfo) : Element :=
  { name := "exchange_versions", text := none, cdata := none,
    children :=
      [{ name := "major", text := info.minor.map i64fmt, cdata := none,
         children := [] },
       { name := "minor", text := info.major.map i64fmt, cdata := none,
         children := [] },
       { name := "release", text := info.release.map i64fmt, cdata := none,
         children := [] }] }

/-- `messages::helpers::parse_node`: filter the direct children by tag name,
take the last one, and parse its text with the field type's `FromStr`. -/
def parse_node {α : Type} (parse : String → Option α) (nm : String)
    (node : Element) : Option α :=
  (node.children.filter fun tag => tag.name = nm).getLast?.bind
    fun tag => tag.text.bind parse

/-- `messages::helpers::add_element`: append a child tag holding the value's
textual form when the field is present; absent fields add nothing. -/
def add_element {α : Type} (fmt : α → String) (parent : Element) (nm : String)
    (value : Option α) : Element :=
  match value with
  | some v =>
    { parent with
      children := parent.children ++
        [{ name := nm, text := some (fmt v), cdata := none, children := [] }] }
  | none => parent

/-- `messages::exchange_versions::ExchangeVersions`. -/
structure ExchangeVersions where
  major : Option Int
  minor : Option Int
  release : Option Int
  name : Option String
deriving DecidableEq, Repr

/-- `From<&treexml::Element> for ExchangeVersions`: every field is
overwritten with the corresponding `parse_node` result (starting from the
default record, which the unconditional assignments make irrelevant). -/
def ExchangeVersions.fromElement (node : Element) : ExchangeVersions :=
  { major := parse_node parseI64 "major" node,
    minor := parse_node parseI64 "minor" node,
    release := parse_node parseI64 "release" node,
    name := parse_node some "name" node }

/-- `From<&ExchangeVersions> for treexml::Element`: build the
`exchange_versions` node and `add_element` each field in order. -/
def ExchangeVersions.toElement (e : ExchangeVersions) : Element :=
  add_element (fun s => s)
    (add_element i64fmt
      (add_element i64fmt
        (add_element i64fmt (Element.new "exchange_versions") "major" e.major)
        "minor" e.minor)
      "release" e.release)
    "name" e.name

/-- `models::HostInfo`, with the `f64`-valued fields held at an abstract
type `F` (float parsing is modelled by an arbitrary total function). -/
structure HostInfo (F : Type) where
  tz_shift : Option Int
  domain_name : Option String
  serialnum : Option String
  ip_addr : Option String
  host_cpid : Option String
  p_ncpus : Option Int
  p_vendor : Option String
  p_model : Option String
  p_features : Option String
  p_fpops : Option F
  p_iops : Option F
  p_membw : Option F
  p_calculated : Option F
  p_vm_extensions_disabled : Option Bool
  m_nbytes : Option F
  m_cache : Option F
  m_swap : Option F
  d_total : Option F
  d_free : Option F
  os_name : Option String
  os_version : Option String
  product_name : Option String
  mac_address : Option String
  virtualbox_version : Option String

/-- `HostInfo::default()`: every field absent. -/
def HostInfo.default (F : Type) : HostInfo F :=
  { tz_shift := none, domain_name := none, serialnum := none, ip_addr := none,
    host_cpid := none, p_ncpus := none, p_vendor := none, p_model := none,
    p_features := none, p_fpops := none, p_iops := none, p_membw := none,
    p_calculated := none, p_vm_extensions_disabled := none, m_nbytes := none,
    m_cache := none, m_swap := none, d_total := none, d_free := none,
    os_name := none, os_version := none, product_name := none,
    mac_address := none, virtualbox_version := none }

/-- The tag names `HostInfo::from` (`src/models.rs`) matches on; any other
child tag falls into the silent default arm. -/
def hostInfoTags : List String :=
  ["p_fpops", "p_iops", "p_membw", "p_calculated", "p_vm_extensions_disabled",
   "host_cpid", "product_name", "mac_address", "domain_name", "ip_addr",
   "p_vendor", "p_model", "os_name", "os_version", "virtualbox_version",
   "p_features", "timezone", "p_ncpus", "m_nbytes", "m_cache", "m_swap",
   "d_total", "d_free"]

/-- The loop body of `HostInfo::from` (`src/models.rs`); text-valued fields
are assigned the child's raw `text` (`clone_from`), numeric and boolean
fields go through `eval_node_contents`.  `parseF` models
`str::parse::<f64>().ok()`. -/
def hiStep {F : Type} (parseF : String → Option F) (e : HostInfo F)
    (n : Element) : HostInfo F :=
  if n.name = "p_fpops" then { e with p_fpops := evalNodeContents parseF n }
  else if n.name = "p_iops" then { e with p_iops := evalNodeContents parseF n }
  else if n.name = "p_membw" then
    { e with p_membw := evalNodeContents parseF n }
  else if n.name = "p_calculated" then
    { e with p_calculated := evalNodeContents parseF n }
  else if n.name = "p_vm_extensions_disabled" then
    { e with p_vm_extensions_disabled := evalNodeContents parseBool n }
  else if n.name = "host_cpid" then { e with host_cpid := n.text }
  else if n.name = "product_name" then { e with product_name := n.text }
  else if n.name = "mac_address" then { e with mac_address := n.text }
  else if n.name = "domain_name" then { e with domain_name := n.text }
  else if n.name = "ip_addr" then { e with ip_addr := n.text }
  else if n.name = "p_vendor" then { e with p_vendor := n.text }
  else if n.name = "p_model" then { e with p_model := n.text }
  else if n.name = "os_name" then { e with os_name := n.text }
  else if n.name = "os_version" then { e with os_version := n.text }
  else if n.name = "virtualbox_version" then
    { e with virtualbox_version := n.text }
  else if n.name = "p_features" then { e with p_features := n.text }
  else if n.name = "timezone" then
    { e with tz_shift := evalNodeContents parseI64 n }
  else if n.name = "p_ncpus" then
    { e with p_ncpus := evalNodeContents parseI64 n }
  else if n.name = "m_nbytes" then
    { e with m_nbytes := evalNodeContents parseF n }
  else if n.name = "m_cache" then { e with m_cache := evalNodeContents parseF n }
  else if n.name = "m_swap" then { e with m_swap := evalNodeContents parseF n }
  else if n.name = "d_total" then { e with d_total := evalNodeContents parseF n }
  else if n.name = "d_free" then { e with d_free := evalNodeContents parseF n }
  else e

/-- `HostInfo::from(&treexml::Element)` (`src/models.rs`): start from the
default record and fold the children in document order. -/
def HostInfo.fromElement {F : Type} (parseF : String → Option F)
    (node : Element) : HostInfo F :=
  node.children.foldl (hiStep parseF) (HostInfo.default F)

/- ### Decimal printing/parsing round-trip -/

/-- The printer only emits decimal digit characters in digit position. -/
lemma digitChar_spec (d : Nat) (h : d < 10) :
    isDigitChar (digitChar d) = true ∧ digitVal (digitChar d) = d := by
  interval_cases d <;> exact ⟨by decide, by decide⟩

/-- With enough fuel the printed digit list is nonempty and starts with a
digit character. -/
lemma natToDigitsAux_head (fuel n : Nat) (h : n < fuel) :
    ∃ c cs, natToDigitsAux fuel n = c :: cs ∧ isDigitChar c = true := by
  induction fuel generalizing n with
  | zero => omega
  | succ fuel ih =>
    by_cases hn : n < 10
    · exact ⟨digitChar n, [], by simp [natToDigitsAux, hn],
        (digitChar_spec n hn).1⟩
    · have hlt : n / 10 < fuel := by omega
      obtain ⟨c, cs, heq, hc⟩ := ih (n / 10) hlt
      refine ⟨c, cs ++ [digitChar (n % 10)], ?_, hc⟩
      simp [natToDigitsAux, hn, heq]

/-- Folding the digit-accumulation step over a printed digit list recovers
the printed number (below the fuel bound). -/
lemma foldl_parseDigitsStep (fuel n : Nat) (h : n < fuel) (a : Nat) :
    List.foldl parseDigitsStep (some a) (natToDigitsAux fuel n) =
      some (a * 10 ^ (natToDigitsAux fuel n).length + n) := by
  induction fuel generalizing n a with
  | zero => omega
  | succ fuel ih =>
    by_cases hn : n < 10
    · obtain ⟨hdig, hval⟩ := digitChar_spec n hn
      simp [natToDigitsAux, hn, parseDigitsStep, hdig, hval]
    · have hlt : n / 10 < fuel := by omega
      have hrec := ih (n / 10) hlt a
      obtain ⟨hdig, hval⟩ := digitChar_spec (n % 10) (by omega)
      simp only [natToDigitsAux, if_neg hn, List.foldl_append, hrec,
        List.foldl_cons, List.foldl_nil, parseDigitsStep, hdig, if_true,
        hval, List.length_append, List.length_cons, List.length_nil]
      congr 1
      have hmod := Nat.div_add_mod n 10
      ring_nf
      omega

/-- Parsing the decimal rendering of a natural number gives it back. -/
lemma parseDigits_natDigitChars (n : Nat) :
    parseDigits (natDigitChars n) = some n := by
  obtain ⟨c, cs, heq, -⟩ := natToDigitsAux_head (n + 1) n (by omega)
  have hfold := foldl_parseDigitsStep (n + 1) n (by omega) 0
  unfold natDigitChars
  rw [heq] at hfold ⊢
  simpa [parseDigits] using hfold

/-- A digit character is neither a plus nor a minus sign. -/
lemma isDigitChar_ne_sign (c : Char) (h : isDigitChar c = true) :
    c ≠ '+' ∧ c ≠ '-' := by
  constructor <;> intro hc <;> rw [hc] at h <;> exact absurd h (by decide)

/-- The signed parser on an unsigned-looking input (leading digit). -/
lemma parseSignedIntChars_default (lo hi : Int) (c : Char) (cs : List Char)
    (h1 : c ≠ '+') (h2 : c ≠ '-') :
    parseSignedIntChars lo hi (c :: cs) =
      (parseDigits (c :: cs)).bind
        (fun m => if lo ≤ (m : Int) ∧ (m : Int) ≤ hi then some (m : Int)
          else none) := by
  unfold parseSignedIntChars
  split <;> simp_all

/-- Round-trip of the `i64` text codec: formatting then parsing an in-range
value returns it unchanged. -/
lemma parseI64_i64fmt (v : Int) (h1 : -(2 ^ 63) ≤ v) (h2 : v ≤ 2 ^ 63 - 1) :
    parseI64 (i64fmt v) = some v := by
  have hdata : (i64fmt v).data = i64fmtChars v := rfl
  unfold parseI64
  rw [hdata]
  by_cases hv : v < 0
  · have habs : -((v.natAbs : Int)) = v := by omega
    simp only [i64fmtChars, if_pos hv, parseSignedIntChars,
      parseDigits_natDigitChars, Option.some_bind]
    split
    · rw [habs]
    · next h => exact absurd ⟨by omega, by omega⟩ h
  · obtain ⟨c, cs, heq, hc⟩ :=
      natToDigitsAux_head (v.natAbs + 1) v.natAbs (by omega)
    have habs : ((v.natAbs : Int)) = v := by omega
    obtain ⟨hp, hm⟩ := isDigitChar_ne_sign c hc
    have hchars : i64fmtChars v = c :: cs := by
      simpa [i64fmtChars, if_neg hv, natDigitChars] using heq
    rw [hchars, parseSignedIntChars_default _ _ c cs hp hm, ← hchars]
    have hpd : parseDigits (i64fmtChars v) = some v.natAbs := by
      simpa [i64fmtChars, if_neg hv] using parseDigits_natDigitChars v.natAbs
    rw [hpd, Option.some_bind]
    split
    · rw [habs]
    · next h => exact absurd ⟨by omega, by omega⟩ h

/- ### Reply-validator lemmas -/

/-- Scanning past a prefix of non-terminal elements only (possibly) flips the
success flag; the continuation sees the rest of the list unchanged. -/
lemma verifyAux_append_nonterminal (pre : List Element)
    (h : ∀ x ∈ pre, isTerminal x.name = false) (b : Bool)
    (rest : List Element) :
    ∃ b', verifyAux b (pre ++ rest) = verifyAux b' rest := by
  induction pre generalizing b with
  | nil => exact ⟨b, rfl⟩
  | cons x pre ih =>
    have hx := h x (List.mem_cons_self x pre)
    have hterm : x.name ≠ "status" ∧ x.name ≠ "unauthorized" ∧
        x.name ≠ "error" := by
      simp only [isTerminal, Bool.or_eq_false_iff, decide_eq_false_iff_not]
        at hx
      tauto
    have hrest : ∀ y ∈ pre, isTerminal y.name = false := fun y hy =>
      h y (List.mem_cons_of_mem x hy)
    by_cases hs : x.name = "success"
    · simpa [verifyAux, hs] using ih hrest true
    · simpa [verifyAux, hs, hterm.1, hterm.2.1, hterm.2.2] using ih hrest b


/-- A reply list with no terminal element validates to `Ok` (with some flag). -/
lemma verify_ok_of_no_terminal (data : List Element)
    (h : ∀ x ∈ data, isTerminal x.name = false) :
    ∃ b, verify_rpc_reply_contents data = .ok b := by
  obtain ⟨b', hb⟩ := verifyAux_append_nonterminal data h false []
  exact ⟨b', by simpa [verify_rpc_reply_contents, verifyAux] using hb⟩

/-- If no element carries the requested tag, the scan finds nothing. -/
lemma findTag_eq_none (tag : String) (l : List Element)
    (h : ∀ x ∈ l, x.name ≠ tag) : findTag tag l = none := by
  induction l with
  | nil => rfl
  | cons c rest ih =>
    have hc := h c (List.mem_cons_self c rest)
    simp [findTag, hc, ih (fun y hy => h y (List.mem_cons_of_mem c hy))]

/-- Claim C3 counterexample: a reply whose `status` element is preceded by an
`error` element fails with the error mapping, not with `Status`, so the
"regardless of position" part of the claim is false. -/
theorem status_overridden_by_earlier_error_cx :
    verify_rpc_reply_contents
        [⟨"error", some "boom", none, []⟩, ⟨"status", some "5", none, []⟩] =
      .error (.DataParse "boom") ∧
    Error.DataParse "boom" ≠ Error.Status 5 :=
  ⟨rfl, by decide⟩

/-- Claim C3 (amended): for every reply element list whose first terminal
element (`status`, `unauthorized` or `error`) is a `status` element with
integer content `n`, reply validation fails with `Status n`; `success`
elements before it and arbitrary elements after it do not affect this. -/
theorem status_first_terminal_yields_status (pre : List Element) (s : Element)
    (post : List Element) (n : Int)
    (hpre : ∀ x ∈ pre, isTerminal x.name = false)
    (hname : s.name = "status")
    (hn : evalNodeContents parseI32 s = some n) :
    verify_rpc_reply_contents (pre ++ s :: post) = .error (.Status n) := by
  obtain ⟨b', hb⟩ := verifyAux_append_nonterminal pre hpre false (s :: post)
  unfold verify_rpc_reply_contents
  rw [hb]
  simp [verifyAux, hname, hn]

/-- Witness for the amended C3 theorem at a concrete reply. -/
theorem status_first_terminal_yields_status_witness :
    verify_rpc_reply_contents
        [⟨"success", none, none, []⟩, ⟨"status", some "42", none, []⟩,
         ⟨"error", some "later", none, []⟩] = .error (.Status 42) :=
  status_first_terminal_yields_status [⟨"success", none, none, []⟩]
    ⟨"status", some "42", none, []⟩ [⟨"error", some "later", none, []⟩] 42
    (by decide) rfl (by decide)

/-- Claim C8: for every reply element list whose first terminal element is an
`error` element with text `t`, validation fails with `Auth t` for
"unauthorized" or "Missing authenticator", `InvalidURL t` for "Missing URL",
`AlreadyAttached t` for "Already attached to project", and `DataParse t`
otherwise. -/
theorem error_first_terminal_mapping (pre : List Element) (c : Element)
    (t : String) (post : List Element)
    (hpre : ∀ x ∈ pre, isTerminal x.name = false)
    (hname : c.name = "error") (htext : c.text = some t) :
    verify_rpc_reply_contents (pre ++ c :: post) =
      .error
        (if t = "unauthorized" ∨ t = "Missing authenticator" then .Auth t
         else if t = "Missing URL" then .InvalidURL t
         else if t = "Already attached to project" then .AlreadyAttached t
         else .DataParse t) := by
  obtain ⟨b', hb⟩ := verifyAux_append_nonterminal pre hpre false (c :: post)
  unfold verify_rpc_reply_contents
  rw [hb]
  simp [verifyAux, hname, htext]
  split_ifs <;> rfl

/-- Witness for C8 at the spec's scenario reply. -/
theorem error_first_terminal_mapping_witness :
    verify_rpc_reply_contents
        [⟨"error", some "Already attached to project", none, []⟩] =
      .error (.AlreadyAttached "Already attached to project") := by
  have h := error_first_terminal_mapping []
    ⟨"error", some "Already attached to project", none, []⟩
    "Already attached to project" [] (by decide) rfl rfl
  simpa using h

/-- Claim C10: a first-terminal `status` element whose text is absent or does
not parse as an integer fails with the sentinel `Status 9999`, not with a
`DataParse` failure. -/
theorem status_unparsable_sentinel (pre : List Element) (c : Element)
    (post : List Element)
    (hpre : ∀ x ∈ pre, isTerminal x.name = false)
    (hname : c.name = "status")
    (hparse : evalNodeContents parseI32 c = none) :
    verify_rpc_reply_contents (pre ++ c :: post) = .error (.Status 9999) := by
  obtain ⟨b', hb⟩ := verifyAux_append_nonterminal pre hpre false (c :: post)
  unfold verify_rpc_reply_contents
  rw [hb]
  simp [verifyAux, hname, hparse]

/-- Witness for C10 at a `status` element with non-numeric text. -/
theorem status_unparsable_sentinel_witness :
    verify_rpc_reply_contents [⟨"status", some "unavailable", none, []⟩] =
      .error (.Status 9999) :=
  status_unparsable_sentinel [] ⟨"status", some "unavailable", none, []⟩ []
    (by decide) rfl (by decide)

/-- Claim C7: a reply that contains a `success` element, no terminal failure
element and no element carrying the requested object tag makes
`get_object` fail with `DataParse "Object not found."`, not succeed. -/
theorem get_object_not_found {α : Type} (decode : Element → α) (tag : String)
    (data : List Element)
    (_hsuc : ∃ x ∈ data, x.name = "success")
    (hterm : ∀ x ∈ data, isTerminal x.name = false)
    (hobj : ∀ x ∈ data, x.name ≠ tag) :
    getObjectReply decode tag data =
      .error (.DataParse "Object not found.") := by
  obtain ⟨b, hb⟩ := verify_ok_of_no_terminal data hterm
  simp [getObjectReply, hb, findTag_eq_none tag data hobj]

/-- Witness for C7: a bare `success` reply to a `server_version` request. -/
theorem get_object_not_found_witness :
    getObjectReply (fun _ => ()) "server_version"
        [⟨"success", none, none, []⟩] =
      .error (.DataParse "Object not found.") :=
  get_object_not_found (fun _ => ()) "server_version"
    [⟨"success", none, none, []⟩]
    ⟨⟨"success", none, none, []⟩, List.mem_cons_self _ _, rfl⟩
    (by decide) (by decide)


/- ### Last-occurrence-wins decoding -/

/-- The last element of a list extended on the right by a singleton. -/
lemma getLast?_middle_concat {α : Type} (l1 l2 : List α) (c c2 : α) :
    (l1 ++ c :: (l2 ++ [c2])).getLast? = some c2 := by
  rw [show l1 ++ c :: (l2 ++ [c2]) = (l1 ++ c :: l2) ++ [c2] by simp]
  exact List.getLast?_concat _

/-- Claim C6: when a tag the decoder expects once occurs on two (or more)
sibling children, decoding takes the last occurrence in document order:
`parse_node` returns the parse of the last sibling carrying the tag, and
`VersionInfo::from` keeps the value of the last matching child. -/
theorem duplicate_tag_last_wins :
    (∀ (α : Type) (p : String → Option α) (nm : String) (node : Element)
        (pre mid post : List Element) (c1 c2 : Element),
        node.children = pre ++ c1 :: (mid ++ c2 :: post) → c1.name = nm →
        c2.name = nm → (∀ x ∈ post, x.name ≠ nm) →
        parse_node p nm node = c2.text.bind p) ∧
    (∀ (node : Element) (xs : List Element) (c : Element),
        node.children = xs ++ [c] → c.name = "major" →
        (VersionInfo.fromElement node).major = evalNodeContents parseI64 c) := by
  constructor
  · intro α p nm node pre mid post c1 c2 hch h1 h2 hpost
    have hfp : (post.filter fun t => t.name = nm) = [] := by
      rw [List.filter_eq_nil_iff]
      intro a ha
      simpa using hpost a ha
    have hfilter : ((pre ++ c1 :: (mid ++ c2 :: post)).filter
        fun tag => tag.name = nm) =
        (pre.filter fun tag => tag.name = nm) ++
          c1 :: ((mid.filter fun tag => tag.name = nm) ++ [c2]) := by
      simp [List.filter_append, List.filter_cons, h1, h2, hfp]
    unfold parse_node
    rw [hch, hfilter, getLast?_middle_concat]
    rfl
  · intro node xs c hch hname
    unfold VersionInfo.fromElement
    rw [hch, List.foldl_append]
    simp [viStep, hname]

/-- Witness for C6: two sibling `major` tags holding 7 then 8 decode to 8,
through both decoders. -/
theorem duplicate_tag_last_wins_witness :
    parse_node parseI64 "major"
        ⟨"exchange_versions", none, none,
         [⟨"major", some "7", none, []⟩, ⟨"major", some "8", none, []⟩]⟩ =
      some 8 ∧
    (VersionInfo.fromElement
        ⟨"exchange_versions", none, none,
         [⟨"major", some "7", none, []⟩,
          ⟨"major", some "8", none, []⟩]⟩).major = some 8 := by
  constructor
  · have h := duplicate_tag_last_wins.1 Int parseI64 "major"
      ⟨"exchange_versions", none, none,
       [⟨"major", some "7", none, []⟩, ⟨"major", some "8", none, []⟩]⟩
      [] [] [] ⟨"major", some "7", none, []⟩ ⟨"major", some "8", none, []⟩
      rfl rfl rfl (by simp)
    rw [h]
    decide
  · have h := duplicate_tag_last_wins.2
      ⟨"exchange_versions", none, none,
       [⟨"major", some "7", none, []⟩, ⟨"major", some "8", none, []⟩]⟩
      [⟨"major", some "7", none, []⟩] ⟨"major", some "8", none, []⟩ rfl rfl
    rw [h]
    decide

/- ### Round-trip of the version-exchange message codec -/

/-- Claim C5: for the version-exchange message codec, decoding the tree
produced by encoding a record with only present (in-range) fields
reproduces the record exactly, and re-encoding the decoded record
reproduces the encoded tree. -/
theorem exchange_versions_roundtrip (ma mi re : Int) (nm : String)
    (hma1 : -(2 ^ 63) ≤ ma) (hma2 : ma ≤ 2 ^ 63 - 1)
    (hmi1 : -(2 ^ 63) ≤ mi) (hmi2 : mi ≤ 2 ^ 63 - 1)
    (hre1 : -(2 ^ 63) ≤ re) (hre2 : re ≤ 2 ^ 63 - 1) :
    ExchangeVersions.fromElement
        (ExchangeVersions.toElement ⟨some ma, some mi, some re, some nm⟩) =
      ⟨some ma, some mi, some re, some nm⟩ ∧
    ExchangeVersions.toElement
        (ExchangeVersions.fromElement
          (ExchangeVersions.toElement ⟨some ma, some mi, some re, some nm⟩)) =
      ExchangeVersions.toElement ⟨some ma, some mi, some re, some nm⟩ := by
  have h1 : ExchangeVersions.fromElement
      (ExchangeVersions.toElement ⟨some ma, some mi, some re, some nm⟩) =
      ⟨some ma, some mi, some re, some nm⟩ := by
    show (⟨parseI64 (i64fmt ma), parseI64 (i64fmt mi), parseI64 (i64fmt re),
      some nm⟩ : ExchangeVersions) = _
    rw [parseI64_i64fmt ma hma1 hma2, parseI64_i64fmt mi hmi1 hmi2,
      parseI64_i64fmt re hre1 hre2]
  exact ⟨h1, by rw [h1]⟩

/-- Witness for C5 at the crate's default version record with a name. -/
theorem exchange_versions_roundtrip_witness :
    ExchangeVersions.fromElement
        (ExchangeVersions.toElement ⟨some 8, some 1, some 0, some "BOINC"⟩) =
      ⟨some 8, some 1, some 0, some "BOINC"⟩ ∧
    ExchangeVersions.toElement
        (ExchangeVersions.fromElement
          (ExchangeVersions.toElement ⟨some 8, some 1, some 0, some "BOINC"⟩)) =
      ExchangeVersions.toElement ⟨some 8, some 1, some 0, some "BOINC"⟩ :=
  exchange_versions_roundtrip 8 1 0 "BOINC" (by decide) (by decide)
    (by decide) (by decide) (by decide) (by decide)


/- ### Lenient record decoding (HostInfo) -/

/-- A child whose tag `HostInfo::from` does not match leaves the accumulator
unchanged. -/
lemma hiStep_unknown {F : Type} (parseF : String → Option F) (e : HostInfo F)
    (c : Element) (h : c.name ∉ hostInfoTags) : hiStep parseF e c = e := by
  have hne : ∀ s : String, s ∈ hostInfoTags → ¬(c.name = s) := fun s hmem hc =>
    h (hc.symm ▸ hmem)
  unfold hiStep
  rw [if_neg (hne "p_fpops" (by decide)),
    if_neg (hne "p_iops" (by decide)),
    if_neg (hne "p_membw" (by decide)),
    if_neg (hne "p_calculated" (by decide)),
    if_neg (hne "p_vm_extensions_disabled" (by decide)),
    if_neg (hne "host_cpid" (by decide)),
    if_neg (hne "product_name" (by decide)),
    if_neg (hne "mac_address" (by decide)),
    if_neg (hne "domain_name" (by decide)),
    if_neg (hne "ip_addr" (by decide)),
    if_neg (hne "p_vendor" (by decide)),
    if_neg (hne "p_model" (by decide)),
    if_neg (hne "os_name" (by decide)),
    if_neg (hne "os_version" (by decide)),
    if_neg (hne "virtualbox_version" (by decide)),
    if_neg (hne "p_features" (by decide)),
    if_neg (hne "timezone" (by decide)),
    if_neg (hne "p_ncpus" (by decide)),
    if_neg (hne "m_nbytes" (by decide)),
    if_neg (hne "m_cache" (by decide)),
    if_neg (hne "m_swap" (by decide)),
    if_neg (hne "d_total" (by decide)),
    if_neg (hne "d_free" (by decide))]

/-- Claim C9: `HostInfo` decoding is lenient and total — a child with an
unknown tag leaves the decoded record unchanged, and a child whose text is
absent or fails to parse as the field's type (here the `i64` field
`p_ncpus`) makes exactly that field `None` while every other field decodes
as without it.  (The decoder itself is a total function, so no tree makes
decoding fail as a whole.) -/
theorem hostinfo_lenient_decode {F : Type} (parseF : String → Option F) :
    (∀ (nm : String) (t cd : Option String) (pre posts : List Element)
        (c : Element), c.name ∉ hostInfoTags →
        HostInfo.fromElement parseF ⟨nm, t, cd, pre ++ c :: posts⟩ =
          HostInfo.fromElement parseF ⟨nm, t, cd, pre ++ posts⟩) ∧
    (∀ (nm : String) (t cd : Option String) (xs : List Element) (c : Element),
        c.name = "p_ncpus" → evalNodeContents parseI64 c = none →
        HostInfo.fromElement parseF ⟨nm, t, cd, xs ++ [c]⟩ =
          { HostInfo.fromElement parseF ⟨nm, t, cd, xs⟩ with
            p_ncpus := none }) := by
  constructor
  · intro nm t cd pre posts c h
    unfold HostInfo.fromElement
    simp only [List.foldl_append, List.foldl_cons]
    rw [hiStep_unknown parseF _ c h]
  · intro nm t cd xs c hname hparse
    unfold HostInfo.fromElement
    simp only [List.foldl_append, List.foldl_cons, List.foldl_nil]
    simp [hiStep, hname, hparse]

/-- Witness for C9 with the concrete `i64` parser standing in for the float
parser: an unknown `wsl_distro` child is ignored, and a `p_ncpus` child
with non-numeric text blanks only that field. -/
theorem hostinfo_lenient_decode_witness :
    HostInfo.fromElement parseI64
        ⟨"host_info", none, none,
         [⟨"p_ncpus", some "4", none, []⟩,
          ⟨"wsl_distro", some "x", none, []⟩]⟩ =
      HostInfo.fromElement parseI64
        ⟨"host_info", none, none, [⟨"p_ncpus", some "4", none, []⟩]⟩ ∧
    HostInfo.fromElement parseI64
        ⟨"host_info", none, none,
         [⟨"domain_name", some "h", none, []⟩,
          ⟨"p_ncpus", some "4.5", none, []⟩]⟩ =
      { HostInfo.fromElement parseI64
          ⟨"host_info", none, none, [⟨"domain_name", some "h", none, []⟩]⟩ with
        p_ncpus := none } :=
  ⟨(hostinfo_lenient_decode parseI64).1 "host_info" none none
      [⟨"p_ncpus", some "4", none, []⟩] [] ⟨"wsl_distro", some "x", none, []⟩
      (by decide),
   (hostinfo_lenient_decode parseI64).2 "host_info" none none
      [⟨"domain_name", some "h", none, []⟩] ⟨"p_ncpus", some "4.5", none, []⟩
      rfl (by decide)⟩

/- ### The exchange_versions request encoder (client facade) -/

/-- Claim C4 divergence witness: encoding `VersionInfo {major: 7, minor: 16,
release: 16}` puts the minor value 16 under the `major` tag and the major
value 7 under the `minor` tag (the source assigns the fields swapped), so
the claim that each field's value appears under its own tag fails; the
`release` field is the only one rendered under its own tag. -/
theorem exchange_versions_request_swaps_major_minor :
    ((exchangeVersionsRequest
        { major := some 7, minor := some 16, release := some 16 }).children.map
      fun c => (c.name, c.text)) =
      [("major", some "16"), ("minor", some "7"), ("release", some "16")] := by
  decide

/- ### Transport state machine -/

/-- Claim C1 divergence witness: in the `Ready` state a successful `call`
leaves the stored state `None` instead of restoring `Ready`, so the very
next readiness check on the same transport reports the internal
`Null "Null state"` error instead of ready. -/
theorem transport_call_success_drops_ready (S Fut : Type) (conn : S)
    (data : List Element) (fp : FuturePoll S) :
    callTransport (some (ConnState.Ready conn) : Option (ConnState S Fut))
        (.ok data) = some (none, .ok data) ∧
    pollReady (none : Option (ConnState S Fut)) fp =
      (none, .ready (.error (.Null "Null state"))) :=
  ⟨rfl, rfl⟩

/-- Claim C1, failure half (this part of the claim holds): a failing query
stores `Error e` and propagates the failure, and later readiness checks
keep reporting that stored error. -/
theorem transport_call_failure_sticky (S Fut : Type) (conn : S) (e : Error)
    (fp : FuturePoll S) :
    callTransport (some (ConnState.Ready conn) : Option (ConnState S Fut))
        (.error e) = some (some (.Error e), .error e) ∧
    pollReady (some (ConnState.Error e) : Option (ConnState S Fut)) fp =
      (some (.Error e), .ready (.error e)) :=
  ⟨rfl, rfl⟩

/-- Claim C2 divergence witness: when the pending handshake completes with an
error `e`, `poll_ready` reports `e` once but stores `None` instead of
`Error e`; every later readiness check therefore reports
`Null "Null state"`, not the original error. -/
theorem transport_connect_failure_not_sticky (S Fut : Type) (f : Fut)
    (e : Error) (fp : FuturePoll S) :
    pollReady (some (ConnState.Connecting f) : Option (ConnState S Fut))
        (.ready (.error e)) = (none, .ready (.error e)) ∧
    pollReady (none : Option (ConnState S Fut)) fp =
      (none, .ready (.error (.Null "Null state"))) :=
  ⟨rfl, rfl⟩

end BoincRpc
